import Mathlib

/-!
Verification of the vsfetch reference-data, entity-resolution and
reconciliation core.

The Python sources (`vsfetch/fixed.py`, `vsfetch/dynamic.py`,
`vsfetch/ourairports.py`) are shallowly embedded: pydantic models become
structures, dicts become association lists or index functions derived from
the build loops, fallible code returns `Except`, and the network/store
boundary becomes explicit parameters.  Strings are manipulated through
their character lists so that every operation is structural and
executable.
-/

namespace VSFetch

/-! ### Python string primitives

Every separator used by the source (`"|"`, `"_"`, `"\n"`, `","`) is a
single character, so `str.split` is embedded for single-character
separators only. -/

/-- Python `s.split(sep)` on the character list, single-character separator:
splitting the empty string yields `[""]`; adjacent separators yield empty
fields. -/
def splitChar (sep : Char) : List Char → List (List Char)
  | [] => [[]]
  | c :: rest =>
    match splitChar sep rest with
    | g :: gs => if c = sep then [] :: g :: gs else (c :: g) :: gs
    | [] => [[c]]

/-- Python `s.split(sep)` for a one-character `sep`. -/
def pySplit (sep : Char) (s : String) : List String :=
  (splitChar sep s.data).map String.mk

/-- Python `len(s)` (counted in characters). -/
def strLen (s : String) : Nat := s.data.length

/-- Python `s[:n]`. -/
def pyTake (n : Nat) (s : String) : String := String.mk (s.data.take n)

/-- Python `s.strip()`. -/
def pyStrip (s : String) : String :=
  String.mk (((s.data.dropWhile Char.isWhitespace).reverse.dropWhile
    Char.isWhitespace).reverse)

/-- Python `s.startswith(c)` for a one-character pattern. -/
def startsWithChar (c : Char) (s : String) : Bool :=
  match s.data with
  | [] => false
  | a :: _ => a = c

/-- Python `s.endswith(c)` for a one-character pattern. -/
def endsWithChar (c : Char) (s : String) : Bool :=
  match s.data.getLast? with
  | some a => a = c
  | none => false

/-- Python `s.lower()` (ASCII letters, which is all the source relies on). -/
def lowerStr (s : String) : String := String.mk (s.data.map Char.toLower)

/-- Python `s[1:-1]`. -/
def innerStr (s : String) : String := String.mk ((s.data.drop 1).dropLast)

/-! ### Fixed (reference) data model — `vsfetch/fixed.py` -/

/-- `fixed.Point`. Coordinates are embedded as rationals: the source only
ever copies them, never computes with them. -/
structure Point where
  lat : ℚ
  lng : ℚ
deriving DecidableEq, Repr

/-- `fixed.BoundingBox`. -/
structure BoundingBox where
  min : Point
  max : Point
deriving DecidableEq, Repr

/-- `fixed.Boundaries`. The `geometry` member is raw GeoJSON the core never
inspects; it is carried as its serialized text. -/
structure Boundaries where
  geometry : String
  bbox : BoundingBox
  center : Point
deriving DecidableEq, Repr

/-- `fixed.Country`. -/
structure Country where
  name : String
  code : String
  custom_control_name : Option String
deriving DecidableEq, Repr

/-- `fixed.Airport`. -/
structure Airport where
  icao : String
  name : String
  latitude : ℚ
  longitude : ℚ
  iata : Option String
  fir : String
  is_pseudo : Bool
deriving DecidableEq, Repr

/-- `fixed.FIR`. The source field named after the radio prefix is embedded
as `pfx` (the source spelling is not a legal Lean identifier). -/
structure FIR where
  icao : String
  name : String
  pfx : String
  boundaries : Option Boundaries
deriving DecidableEq, Repr

/-- `fixed.UIR`. -/
structure UIR where
  icao : String
  name : String
  fir_ids : List String
deriving DecidableEq, Repr

/-- `fixed.Data`: the four ordered record lists.  The index dicts built by
`build_indexes` are embedded below as functions computed from these lists. -/
structure Data where
  countries : List Country
  airports : List Airport
  firs : List FIR
  uirs : List UIR
deriving DecidableEq, Repr

/-- The ordered list of indices `i` (starting at `n`) whose element
satisfies `f`: exactly the contents a `defaultdict(list)` entry receives
from the `for i, x in enumerate(...)`/`append(i)` loops of
`Data.build_indexes`. -/
def idxList {α : Type} (f : α → Bool) : List α → Nat → List Nat
  | [], _ => []
  | a :: rest, n =>
    if f a then n :: idxList f rest (n + 1) else idxList f rest (n + 1)

/-- Python `self._xs[idxs[0]]` guarded by `if not idxs: return None`. -/
def pickHead {α : Type} (l : List α) (ns : List Nat) : Option α :=
  match ns with
  | [] => none
  | i :: _ => l.get? i

/-- Lookup through a last-write-wins dict entry (`d[key] = i` in a loop):
the entry is the last matching index, absent if there is none. -/
def pickLast {α : Type} (l : List α) (ns : List Nat) : Option α :=
  match ns.getLast? with
  | none => none
  | some i => l.get? i

/-- `Data._airport_icao_idx[code]` (empty list when the key is absent). -/
def Data.airport_icao_idx (d : Data) (code : String) : List Nat :=
  idxList (fun a => a.icao == code) d.airports 0

/-- `Data._airport_iata_idx[code]`: built only from airports with a
non-null IATA code. -/
def Data.airport_iata_idx (d : Data) (code : String) : List Nat :=
  idxList (fun a => a.iata == some code) d.airports 0

/-- `Data._fir_icao_idx[code]`. -/
def Data.fir_icao_idx (d : Data) (code : String) : List Nat :=
  idxList (fun f => f.icao == code) d.firs 0

/-- `Data._fir_prefix_idx.get(code)`: a plain dict written in list order,
so the last FIR with a given radio prefix wins. -/
def Data.fir_pfx_idx (d : Data) (code : String) : Option Nat :=
  (idxList (fun f => f.pfx == code) d.firs 0).getLast?

/-- `Data._country_idx.get(code)`: last write wins. -/
def Data.country_idx (d : Data) (code : String) : Option Nat :=
  (idxList (fun c => c.code == code) d.countries 0).getLast?

/-- Python `ctrl.callsign.split("_")[0]`: the station code both find
functions start from. -/
def stationCode (callsign : String) : String :=
  (pySplit '_' callsign).headD ""

/-- `Data.find_airport_by_ctrl` (the source receives the controller and
reads only its callsign). -/
def Data.find_airport_by_ctrl (d : Data) (callsign : String) : Option Airport :=
  if strLen (stationCode callsign) < 4 then
    pickHead d.airports (d.airport_iata_idx (stationCode callsign))
  else
    match d.airport_icao_idx (stationCode callsign) with
    | [] => pickHead d.airports (d.airport_iata_idx (stationCode callsign))
    | i :: _ => d.airports.get? i

/-- Python `range(len(callsign), 4, -1)`: the lengths tried by the FIR
radio-prefix search, from the full length down to `5`. -/
def rangeDown (start stop : Nat) : List Nat :=
  (List.range' (stop + 1) (start - stop)).reverse

/-- The prefix-search loop of `Data.find_fir_by_ctrl`: for each candidate
length `i`, look `callsign[:i]` up in the radio-prefix dict and return the
indexed FIR on the first hit. -/
def Data.pfxSearch (d : Data) (callsign : String) : List Nat → Option FIR
  | [] => none
  | i :: rest =>
    match d.fir_pfx_idx (pyTake i callsign) with
    | some j => d.firs.get? j
    | none => d.pfxSearch callsign rest

/-- `Data.find_fir_by_ctrl`. -/
def Data.find_fir_by_ctrl (d : Data) (callsign : String) : Option FIR :=
  match d.fir_icao_idx (stationCode callsign) with
  | i :: _ => d.firs.get? i
  | [] => d.pfxSearch callsign (rangeDown (strLen callsign) 4)

/-- `Data.find_country_by_icao`.  The source guard is `if idx:` — integer
truthiness — so index `0` is rejected exactly like a missing key. -/
def Data.find_country_by_icao (d : Data) (icao : String) : Option Country :=
  match d.country_idx (pyTake 2 icao) with
  | some i => if i ≠ 0 then d.countries.get? i else none
  | none => none

/-! ### Spec-side lookup definitions (the spec's words, for refinement) -/

/-- Spec: "the first indexed match" of an ICAO airport lookup. -/
def firstAirportByIcao (d : Data) (code : String) : Option Airport :=
  d.airports.find? (fun a => a.icao == code)

/-- Spec: "the first indexed match" of an IATA airport lookup. -/
def firstAirportByIata (d : Data) (code : String) : Option Airport :=
  d.airports.find? (fun a => a.iata == some code)

/-- Spec §4.1 `find_airport_by_ctrl`, written from the spec's words:
station code is the segment before the first underscore; codes shorter
than 4 characters resolve via IATA only; otherwise ICAO with IATA
fallback; first match or none. -/
def findAirportSpec (d : Data) (callsign : String) : Option Airport :=
  if strLen (stationCode callsign) < 4 then
    firstAirportByIata d (stationCode callsign)
  else
    match firstAirportByIcao d (stationCode callsign) with
    | some a => some a
    | none => firstAirportByIata d (stationCode callsign)

/-- Spec: "first indexed match" of a FIR ICAO lookup. -/
def firstFirByIcao (d : Data) (code : String) : Option FIR :=
  d.firs.find? (fun f => f.icao == code)

/-- Spec §4.1: the FIR-by-radio-prefix index is one-to-one with last write
winning, so a lookup yields the last FIR carrying the prefix. -/
def lastFirByPfx (d : Data) (code : String) : Option FIR :=
  (d.firs.filter (fun f => f.pfx == code)).getLast?

/-- The spec-side prefix search: try each candidate length in order,
returning the first radio-prefix hit. -/
def pfxSearchSpec (d : Data) (callsign : String) : List Nat → Option FIR
  | [] => none
  | i :: rest =>
    match lastFirByPfx d (pyTake i callsign) with
    | some f => some f
    | none => pfxSearchSpec d callsign rest

/-- Spec §4.1 `find_fir_by_ctrl`, written from the spec's words: resolve
the underscore-delimited segment via the FIR-by-ICAO index first; if
absent, try left-substrings of the full callsign from full length down to
5 characters against the radio-prefix index, first hit wins. -/
def findFirSpec (d : Data) (callsign : String) : Option FIR :=
  match firstFirByIcao d (stationCode callsign) with
  | some f => some f
  | none => pfxSearchSpec d callsign (rangeDown (strLen callsign) 4)

/-! ### Reference-data parsing — the `parse` classmethods of `fixed.py` -/

/-- Error kinds escaping `Data.parse`: the explicit `ParseError` raises of
the source, and the pydantic `ValidationError` raised when a numeric field
fails to coerce (the `BeforeValidator(lambda x: float(x))` on airport
latitude/longitude). -/
inductive PErr where
  | parseError (msg : String)
  | validationError (msg : String)
deriving DecidableEq, Repr

/-- Digit-string value, used by the concrete float-coercion fragment. -/
def natDigits (cs : List Char) : ℚ :=
  cs.foldl (fun acc c => acc * 10 + ((c.toNat - 48 : ℕ) : ℚ)) 0

/-- Modelled fragment of Python `float(s)`: optional sign, then a decimal
literal with an optional fractional part (no exponents, specials or inner
underscores).  `Data.parse` is parameterized over the coercion, so the
general theorems do not depend on this fragment; it agrees with Python on
every string it accepts and rejects plain non-numeric strings exactly as
`float` does. -/
def pyFloatDec (s : String) : Option ℚ :=
  let signed : ℚ × List Char :=
    match s.data with
    | '+' :: rest => (1, rest)
    | '-' :: rest => (-1, rest)
    | cs => (1, cs)
  let intPart := signed.2.takeWhile Char.isDigit
  let rest := signed.2.dropWhile Char.isDigit
  match rest with
  | [] => if intPart = [] then none else some (signed.1 * natDigits intPart)
  | '.' :: frac =>
    if frac.all Char.isDigit ∧ (intPart ≠ [] ∨ frac ≠ []) then
      some (signed.1 * (natDigits intPart + natDigits frac / (10 : ℚ) ^ frac.length))
    else none
  | _ => none

/-- `Country.parse`: three pipe-delimited fields or `ParseError`; an empty
third field becomes `none` (its `BeforeValidator`). -/
def Country.parse (line : String) : Except PErr Country :=
  if (pySplit '|' (pyStrip line)).length ≠ 3 then
    .error (.parseError ("invalid country line: " ++ line))
  else
    .ok { name := (pySplit '|' (pyStrip line)).getD 0 "",
          code := (pySplit '|' (pyStrip line)).getD 1 "",
          custom_control_name :=
            if (pySplit '|' (pyStrip line)).getD 2 "" ≠ "" then
              some ((pySplit '|' (pyStrip line)).getD 2 "")
            else none }

/-- `Airport.parse`, parameterized over the Python `float` coercion: seven
pipe-delimited fields or `ParseError`; a latitude or longitude the
coercion rejects raises the pydantic validation error instead. -/
def Airport.parse (pyFloat : String → Option ℚ) (line : String) : Except PErr Airport :=
  if (pySplit '|' (pyStrip line)).length ≠ 7 then
    .error (.parseError ("invalid airport line: " ++ line))
  else
    match pyFloat ((pySplit '|' (pyStrip line)).getD 2 ""),
        pyFloat ((pySplit '|' (pyStrip line)).getD 3 "") with
    | some lat, some lng =>
        .ok { icao := (pySplit '|' (pyStrip line)).getD 0 "",
              name := (pySplit '|' (pyStrip line)).getD 1 "",
              latitude := lat, longitude := lng,
              iata := if (pySplit '|' (pyStrip line)).getD 4 "" ≠ "" then
                  some ((pySplit '|' (pyStrip line)).getD 4 "")
                else none,
              fir := (pySplit '|' (pyStrip line)).getD 5 "",
              is_pseudo := (pySplit '|' (pyStrip line)).getD 6 "" == "1" }
    | _, _ => .error (.validationError ("invalid number in airport line: " ++ line))

/-- `FIR.parse`, parameterized over the loaded boundaries map: four fields
or `ParseError`; boundaries are looked up by the fourth field
(`tokens[3]`, the boundary id) first, falling back to the first field
(`tokens[0]`, the FIR ICAO); a miss on both is non-fatal and only logs —
the returned flag records whether that diagnostic was emitted. -/
def FIR.parse (bounds : String → Option Boundaries) (line : String) :
    Except PErr (FIR × Bool) :=
  if (pySplit '|' (pyStrip line)).length ≠ 4 then
    .error (.parseError ("invalid FIR line: " ++ line))
  else
    .ok ({ icao := (pySplit '|' (pyStrip line)).getD 0 "",
           name := (pySplit '|' (pyStrip line)).getD 1 "",
           pfx := (pySplit '|' (pyStrip line)).getD 2 "",
           boundaries :=
             match bounds ((pySplit '|' (pyStrip line)).getD 3 "") with
             | some b => some b
             | none => bounds ((pySplit '|' (pyStrip line)).getD 0 "") },
         (match bounds ((pySplit '|' (pyStrip line)).getD 3 "") with
          | some b => some b
          | none => bounds ((pySplit '|' (pyStrip line)).getD 0 "")).isNone)

/-- `UIR.parse`: three fields or `ParseError`, the last being a
comma-separated FIR id list (its `BeforeValidator`). -/
def UIR.parse (line : String) : Except PErr UIR :=
  if (pySplit '|' (pyStrip line)).length ≠ 3 then
    .error (.parseError ("invalid UIR line: " ++ line))
  else
    .ok { icao := (pySplit '|' (pyStrip line)).getD 0 "",
          name := (pySplit '|' (pyStrip line)).getD 1 "",
          fir_ids := pySplit ',' (pyStrip ((pySplit '|' (pyStrip line)).getD 2 "")) }

deriving instance DecidableEq for Except

/-- The mutable state of the `Data.parse` loop: the active section name and
the four accumulators. -/
structure PState where
  c_section : Option String
  countries : List Country
  airports : List Airport
  firs : List FIR
  uirs : List UIR
deriving DecidableEq, Repr

/-- The state `Data.parse` starts from. -/
def initPState : PState := ⟨none, [], [], [], []⟩

/-- One iteration of the `Data.parse` loop: skip blank and `;`-comment
lines, switch the section on `[...]` headers (lower-cased inner text), and
otherwise dispatch the line to the active section's record parser; lines
before any header or under an unrecognized section fall through the
`match` and are skipped.  The section dispatch (the source's
`match c_section: case ...`) is split out as `dispatchSection`. -/
def dispatchSection (pyFloat : String → Option ℚ) (bounds : String → Option Boundaries)
    (st : PState) (s : String) (line : String) : Except PErr PState :=
  if s = "countries" then
    (Country.parse line).map (fun c => { st with countries := st.countries ++ [c] })
  else if s = "airports" then
    (Airport.parse pyFloat line).map (fun a => { st with airports := st.airports ++ [a] })
  else if s = "firs" then
    (FIR.parse bounds line).map (fun f => { st with firs := st.firs ++ [f.1] })
  else if s = "uirs" then
    (UIR.parse line).map (fun u => { st with uirs := st.uirs ++ [u] })
  else .ok st

/-- One iteration of the `Data.parse` loop, head of `dispatchSection`. -/
def processLine (pyFloat : String → Option ℚ) (bounds : String → Option Boundaries)
    (st : PState) (line : String) : Except PErr PState :=
  if pyStrip line = "" then .ok st
  else if startsWithChar ';' (pyStrip line) then .ok st
  else if startsWithChar '[' (pyStrip line) && endsWithChar ']' (pyStrip line) then
    .ok { st with c_section := some (lowerStr (innerStr (pyStrip line))) }
  else
    match st.c_section with
    | none => .ok st
    | some s => dispatchSection pyFloat bounds st s line

/-- The `for line in text.split("\n")` fold of `Data.parse`; the first
raised error aborts the whole parse. -/
def parseLines (pyFloat : String → Option ℚ) (bounds : String → Option Boundaries) :
    PState → List String → Except PErr PState
  | st, [] => .ok st
  | st, l :: rest =>
    match processLine pyFloat bounds st l with
    | .ok st2 => parseLines pyFloat bounds st2 rest
    | .error e => .error e

/-- `Data.parse`: split the text on newlines, fold the loop from the empty
state, and build the `Data` value. -/
def Data.parse (pyFloat : String → Option ℚ) (bounds : String → Option Boundaries)
    (text : String) : Except PErr Data :=
  (parseLines pyFloat bounds initPState (pySplit '\n' text)).map
    (fun st => { countries := st.countries, airports := st.airports,
                 firs := st.firs, uirs := st.uirs })

/-! ### Spec-side line classification, for the parse-error claim -/

/-- The active section after the loop has seen `line`. -/
def sectionAfter (cs : Option String) (line : String) : Option String :=
  if pyStrip line = "" then cs
  else if startsWithChar ';' (pyStrip line) then cs
  else if startsWithChar '[' (pyStrip line) && endsWithChar ']' (pyStrip line) then
    some (lowerStr (innerStr (pyStrip line)))
  else cs

/-- A line the loop treats as a record: non-blank, not a comment, not a
section header. -/
def isRecordLine (line : String) : Bool :=
  !(pyStrip line == "") && !(startsWithChar ';' (pyStrip line))
    && !(startsWithChar '[' (pyStrip line) && endsWithChar ']' (pyStrip line))

/-- The fixed pipe-field count of each recognized section name. -/
def fieldCount (s : String) : Option Nat :=
  if s = "countries" then some 3
  else if s = "airports" then some 7
  else if s = "firs" then some 4
  else if s = "uirs" then some 3
  else none

/-- `line` is a record line sitting in a recognized section whose
pipe-field count differs from that section's fixed count. -/
def badCountLine (cs : Option String) (line : String) : Bool :=
  isRecordLine line &&
    (match cs with
     | none => false
     | some s =>
       match fieldCount s with
       | none => false
       | some n => (pySplit '|' (pyStrip line)).length != n)

/-- Some line, taken with its running section, is a record line with a
wrong field count. -/
def hasBadCount : Option String → List String → Bool
  | _, [] => false
  | cs, l :: rest => badCountLine cs l || hasBadCount (sectionAfter cs l) rest

/-- The float coercion accepts both numeric fields of `line` whenever it is
an airports-section record line with the right field count. -/
def floatsOkLine (pyFloat : String → Option ℚ) (cs : Option String) (line : String) : Bool :=
  if cs == some "airports" && isRecordLine line
      && ((pySplit '|' (pyStrip line)).length == 7) then
    (pyFloat ((pySplit '|' (pyStrip line)).getD 2 "")).isSome
      && (pyFloat ((pySplit '|' (pyStrip line)).getD 3 "")).isSome
  else true

/-- `floatsOkLine` holds along the whole input. -/
def floatsOk (pyFloat : String → Option ℚ) : Option String → List String → Bool
  | _, [] => true
  | cs, l :: rest => floatsOkLine pyFloat cs l && floatsOk pyFloat (sectionAfter cs l) rest

/-- The section is one of the four the loop dispatches on. -/
def recognizedSection (cs : Option String) : Bool :=
  match cs with
  | some s => (fieldCount s).isSome
  | none => false

/-- A parse outcome is the `ParseError` raise of the source. -/
def raisesParseError {α : Type} : Except PErr α → Bool
  | .error (.parseError _) => true
  | _ => false

/-- Concrete boundaries value for examples. -/
def bndB : Boundaries :=
  { geometry := "g", bbox := ⟨⟨0, 0⟩, ⟨0, 0⟩⟩, center := ⟨0, 0⟩ }

/-- Concrete boundaries map for the FIR-parsing counterexample: only the
radio prefix "ALFA" has boundaries. -/
def bnds5 : String → Option Boundaries :=
  fun s => if s = "ALFA" then some bndB else none

/-! ### Dynamic (per-cycle) data model — `vsfetch/dynamic.py` -/

/-- `dynamic.VersionedPoint`. -/
structure VersionedPoint where
  lat : ℚ
  lng : ℚ
deriving DecidableEq, Repr

/-- `dynamic.Controller`: one raw controller record of the snapshot. -/
structure Controller where
  cid : Int
  name : String
  callsign : String
  frequency : String
  facility : Int
  visual_range : Int
  text_atis : Option String
  logon_time : String
  human_readable : Option String
deriving DecidableEq, Repr

/-- `dynamic.StoredController`: a controller flattened with its single
representative position. -/
structure StoredController extends Controller where
  position : VersionedPoint
deriving DecidableEq, Repr

/-- `dynamic.AirportControllerSet`: one optional controller per role slot. -/
structure AirportControllerSet where
  atis : Option Controller := none
  delivery : Option Controller := none
  ground : Option Controller := none
  tower : Option Controller := none
  approach : Option Controller := none
deriving DecidableEq, Repr

/-- `AirportControllerSet.is_empty`. -/
def AirportControllerSet.is_empty (s : AirportControllerSet) : Bool :=
  s.atis.isNone && s.delivery.isNone && s.ground.isNone
    && s.tower.isNone && s.approach.isNone

/-- `ourairports.Runway`, one record of the runway catalog. -/
structure OARunway where
  airport_ref : Int
  airport_ident : String
  length_ft : Option Int
  width_ft : Option Int
  surface : String
  lighted : Bool
  closed : Bool
  ident : String
  latitude_deg : Option ℚ
  longitude_deg : Option ℚ
  elevation_ft : Option Int
  heading_degT : Option Int
  displaced_threshold_ft : Option Int
deriving DecidableEq, Repr

/-- `dynamic.Runway`: pydantic ignores the extra `airport_ref` and
`airport_ident` keys on conversion and the active flags default to
false. -/
structure Runway where
  length_ft : Option Int
  width_ft : Option Int
  surface : String
  lighted : Bool
  closed : Bool
  ident : String
  latitude_deg : Option ℚ
  longitude_deg : Option ℚ
  elevation_ft : Option Int
  heading_degT : Option Int
  displaced_threshold_ft : Option Int
  active_to : Bool := false
  active_lnd : Bool := false
deriving DecidableEq, Repr

/-- `dynamic.Airport` — the per-cycle airport state (spec: AirportState);
the source field `type` is embedded as `type_`. -/
structure AirportState extends Airport where
  controllers : AirportControllerSet := {}
  type_ : String := "airport"
  runways : List (String × Runway) := []
deriving DecidableEq, Repr

/-- `dynamic.Airport.is_empty`. -/
def AirportState.is_empty (a : AirportState) : Bool :=
  a.controllers.is_empty

/-- `dynamic.FIR` — the per-cycle FIR state (spec: FIRState), keeping its
controllers keyed by callsign in insertion order. -/
structure FIRState extends FIR where
  controllers : List (String × Controller) := []
  type_ : String := "fir"
deriving DecidableEq, Repr

/-- Python attribute read `getattr(self, name) is None` on a `FIRState`
pydantic model: the defined fields are `icao`, `name`, the radio prefix,
`boundaries`, `controllers` and `type`; reading any other name raises
`AttributeError`. -/
def FIRState.attrIsNone (f : FIRState) (attr : String) : Except String Bool :=
  if attr = "icao" ∨ attr = "name" ∨ attr = "prefix" ∨ attr = "type" then .ok false
  else if attr = "boundaries" then .ok f.boundaries.isNone
  else if attr = "controllers" then .ok false
  else .error ("AttributeError: " ++ attr)

/-- `dynamic.FIR.is_empty`: the source body is
`return self.controller is None` — note `controller`, not the
`controllers` field the class defines. -/
def FIRState.is_empty (f : FIRState) : Except String Bool :=
  f.attrIsNone "controller"

/-- The three dicts `store_controllers` accumulates before serializing:
`airports`, `firs` and `pure_ctrls`. -/
structure AggState where
  airports : List (String × AirportState)
  firs : List (String × FIRState)
  pure_ctrls : List (String × StoredController)
deriving DecidableEq, Repr

/-- The empty dicts `store_controllers` starts from. -/
def emptyAgg : AggState := ⟨[], [], []⟩

/-- The Python error message raised by `await`ing a value that is not
awaitable. -/
def awaitTypeError : String :=
  "TypeError: object can not be used in await expression"

/-- One iteration of the `for ctrl in ctrls` loop of `store_controllers`.
The facility guards run first and perform no call.  Each resolution
branch then begins with `(await get_fixed_data()).find_...`
(dynamic.py lines 274 and 307) — but `fixed.get_data` is a plain
synchronous function, so the `Data` value it returns is not awaitable
and the `await` raises `TypeError` before any resolution, role-slot
write, FIR-mapping write or flattening can happen.  Records whose
facility code is outside 2..6 reach the bare `continue` and are
skipped without touching an `await`. -/
def stepCtrl (st : AggState) (ctrl : Controller) : Except String AggState :=
  if 2 ≤ ctrl.facility ∧ ctrl.facility ≤ 5 then
    .error awaitTypeError
  else if ctrl.facility = 6 then
    .error awaitTypeError
  else .ok st

/-- One iteration of the `for ctrl in atis` loop: after the
`ctrl.facility = 1` assignment (which mutates only the local record) the
body evaluates `(await get_fixed_data()).find_airport_by_ctrl(ctrl)`
(dynamic.py line 334); `get_fixed_data` being synchronous, the `await`
raises `TypeError` for every ATIS record before any observable effect —
the mutated record is discarded with the crashed iteration. -/
def stepAtis (_st : AggState) (_ctrl : Controller) : Except String AggState :=
  .error awaitTypeError

/-- The controllers loop of `store_controllers`: the first raised error
aborts the whole call. -/
def runCtrls : AggState → List Controller → Except String AggState
  | st, [] => .ok st
  | st, c :: rest =>
    match stepCtrl st c with
    | .ok st2 => runCtrls st2 rest
    | .error e => .error e

/-- The ATIS loop of `store_controllers`, likewise aborted by the first
raised error. -/
def runAtis : AggState → List Controller → Except String AggState
  | st, [] => .ok st
  | st, c :: rest =>
    match stepAtis st c with
    | .ok st2 => runAtis st2 rest
    | .error e => .error e

/-- The aggregation phase of `store_controllers`: the dicts it has built
when both loops finish (reaching the serialization of the three maps),
or the first exception that aborted it.  In this source the only records
that do not raise are controllers with a facility code outside 2..6. -/
def store_controllers_resolve (ctrls atis : List Controller) : Except String AggState :=
  match runCtrls emptyAgg ctrls with
  | .error e => .error e
  | .ok st => runAtis st atis

/-! ### Reconciliation and the poll-cycle version gate -/

/-- The single DELETE request `delete_old_keys` issues, when it issues
one: all stale keys, tagged with the cycle version. -/
structure DeleteRequest where
  keys : Finset String
  version : Int
deriving DecidableEq

/-- `dynamic.delete_old_keys`, over its effective inputs: the store's
existing key set under the prefix and the cycle's current key set.  The
guard is Python set truthiness — a request goes out only when the
difference is non-empty. -/
def delete_old_keys (existing new_keys : Finset String) (version : Int) :
    Option DeleteRequest :=
  if existing \ new_keys ≠ ∅ then some ⟨existing \ new_keys, version⟩ else none

/-- The observable outcome of one `dynamic.process` call: whether the
cycle performed its store calls, and the version it returned. -/
structure ProcessOutcome where
  store_calls : Bool
  ret : Int
deriving DecidableEq, Repr

/-- The version gate of `dynamic.process`: the source guard is
`if prev_version and version <= prev_version`, whose first conjunct is
Python integer truthiness, so a previous version equal to 0 is treated
like an absent one.  When the guard fires the function returns
`prev_version` before any store call; otherwise every store call runs and
the new version is returned. -/
def process_gate : Option Int → Int → ProcessOutcome
  | none, v => ⟨true, v⟩
  | some pv, v => if pv ≠ 0 ∧ v ≤ pv then ⟨false, pv⟩ else ⟨true, v⟩

/-- Concrete facility-6 controller record. -/
def ctrl6 : Controller :=
  { cid := 1, name := "A B", callsign := "ZZZZ_CTR", frequency := "123.450",
    facility := 6, visual_range := 150, text_atis := none, logon_time := "t",
    human_readable := none }

/-- Concrete country listed first (index 0) in its dataset. -/
def cAA : Country := { name := "Aaland", code := "AA", custom_control_name := none }

/-- Concrete dataset whose only country is `cAA`, at index 0. -/
def d8 : Data := { countries := [cAA], airports := [], firs := [], uirs := [] }

/-! ## Theorems -/

theorem getLast?_cons_of_ne {α : Type} (a : α) (l : List α) (h : l ≠ []) :
    (a :: l).getLast? = l.getLast? := by
  cases l with
  | nil => exact absurd rfl h
  | cons b bs => rfl

theorem getLast?_isSome_of_ne {α : Type} (l : List α) (h : l ≠ []) :
    ∃ x, l.getLast? = some x := by
  cases l with
  | nil => exact absurd rfl h
  | cons b bs => exact ⟨_, rfl⟩

theorem idxList_eq_nil_iff {α : Type} (f : α → Bool) (l : List α) (n : Nat) :
    idxList f l n = [] ↔ l.find? f = none := by
  induction l generalizing n with
  | nil => simp [idxList]
  | cons a rest ih =>
    by_cases h : f a
    · simp [idxList, h, List.find?_cons_of_pos _ h]
    · simp [idxList, h, List.find?_cons_of_neg _ h, ih]

theorem pickHead_idxList {α : Type} (f : α → Bool) :
    ∀ (l pre : List α), pickHead (pre ++ l) (idxList f l pre.length) = l.find? f := by
  intro l
  induction l with
  | nil => intro pre; simp [idxList, pickHead]
  | cons a rest ih =>
    intro pre
    by_cases h : f a
    · simp only [idxList, h, if_true, pickHead]
      rw [List.get?_append_right (le_refl _), Nat.sub_self]
      simp [List.find?_cons_of_pos _ h]
    · have h2 : pre ++ a :: rest = (pre ++ [a]) ++ rest := by simp
      have h3 : (pre ++ [a]).length = pre.length + 1 := by simp
      simp only [idxList, h, if_false, Bool.false_eq_true]
      rw [List.find?_cons_of_neg _ h, h2, ← h3, ih (pre ++ [a])]

theorem pickLast_idxList {α : Type} (f : α → Bool) :
    ∀ (l pre : List α), pickLast (pre ++ l) (idxList f l pre.length) = (l.filter f).getLast? := by
  intro l
  induction l with
  | nil => intro pre; simp [idxList, pickLast]
  | cons a rest ih =>
    intro pre
    have h2 : pre ++ a :: rest = (pre ++ [a]) ++ rest := by simp
    have h3 : (pre ++ [a]).length = pre.length + 1 := by simp
    by_cases h : f a
    · rw [List.filter_cons_of_pos h]
      have hidx : idxList f (a :: rest) pre.length
          = pre.length :: idxList f rest (pre.length + 1) := by
        simp [idxList, h]
      rw [hidx]
      rcases hrest : idxList f rest (pre.length + 1) with _ | ⟨j, js⟩
      · have hfil : rest.filter f = [] := by
          rw [List.filter_eq_nil]
          exact List.find?_eq_none.mp ((idxList_eq_nil_iff f rest (pre.length + 1)).mp hrest)
        have hget : (pre ++ a :: rest).get? pre.length = some a := by
          rw [List.get?_append_right (le_refl _), Nat.sub_self]
          rfl
        have hlhs : pickLast (pre ++ a :: rest) [pre.length]
            = (pre ++ a :: rest).get? pre.length := rfl
        rw [hlhs, hget, hfil]
        rfl
      · have hfil : rest.filter f ≠ [] := by
          intro hc
          have hn : rest.find? f = none := List.find?_eq_none.mpr ((List.filter_eq_nil).mp hc)
          rw [← idxList_eq_nil_iff f rest (pre.length + 1), hrest] at hn
          exact List.cons_ne_nil _ _ hn
        have hl2 : (a :: rest.filter f).getLast? = (rest.filter f).getLast? :=
          getLast?_cons_of_ne _ _ hfil
        have hstep : pickLast (pre ++ a :: rest) (pre.length :: j :: js)
            = pickLast (pre ++ a :: rest) (j :: js) := rfl
        rw [hstep, hl2]
        have := ih (pre ++ [a])
        rw [h3, hrest] at this
        rw [← h2] at this
        exact this
    · rw [List.filter_cons_of_neg h]
      have hidx : idxList f (a :: rest) pre.length = idxList f rest (pre.length + 1) := by
        simp [idxList, h]
      rw [hidx]
      have := ih (pre ++ [a])
      rw [h3, ← h2] at this
      exact this

theorem pickHead_idx0 {α : Type} (f : α → Bool) (l : List α) :
    pickHead l (idxList f l 0) = l.find? f := by
  have h := pickHead_idxList f l []
  simpa using h

theorem pickLast_idx0 {α : Type} (f : α → Bool) (l : List α) :
    pickLast l (idxList f l 0) = (l.filter f).getLast? := by
  have h := pickLast_idxList f l []
  simpa using h

/-- C3: for every controller callsign, `find_airport_by_ctrl` derives the
station code as the segment before the first underscore; codes shorter
than 4 characters resolve via the IATA index only, longer ones via the
ICAO index with IATA fallback, first indexed match or none — i.e. the
source function coincides with the spec-side description. -/
theorem c3_find_airport_by_ctrl (d : Data) (cs : String) :
    d.find_airport_by_ctrl cs = findAirportSpec d cs := by
  have hiata : pickHead d.airports (d.airport_iata_idx (stationCode cs))
      = firstAirportByIata d (stationCode cs) :=
    pickHead_idx0 (fun a : Airport => a.iata == some (stationCode cs)) d.airports
  unfold Data.find_airport_by_ctrl findAirportSpec
  by_cases h : strLen (stationCode cs) < 4
  · simp only [h, if_true]
    exact hiata
  · simp only [h, if_false]
    have hicao := pickHead_idx0 (fun a => a.icao == stationCode cs) d.airports
    rcases hi : d.airport_icao_idx (stationCode cs) with _ | ⟨i, is⟩
    · rw [Data.airport_icao_idx] at hi
      have hfind : List.find? (fun a => a.icao == stationCode cs) d.airports = none :=
        (idxList_eq_nil_iff _ _ 0).mp hi
      have hspec : firstAirportByIcao d (stationCode cs) = none := hfind
      rw [hspec]
      exact hiata
    · rw [Data.airport_icao_idx] at hi
      rw [hi] at hicao
      have hget : d.airports.get? i
          = List.find? (fun a => a.icao == stationCode cs) d.airports := hicao
      rcases hfind : List.find? (fun a => a.icao == stationCode cs) d.airports with _ | a
      · exfalso
        rw [← idxList_eq_nil_iff _ _ 0, hi] at hfind
        exact List.cons_ne_nil _ _ hfind
      · have hspec : firstAirportByIcao d (stationCode cs) = some a := hfind
        rw [hspec]
        exact hget.trans hfind

theorem pfxSearch_eq_spec (d : Data) (cs : String) :
    ∀ L : List Nat, d.pfxSearch cs L = pfxSearchSpec d cs L := by
  intro L
  induction L with
  | nil => rfl
  | cons i rest ih =>
    have hlk := pickLast_idx0 (fun f => f.pfx == pyTake i cs) d.firs
    rcases hp : (idxList (fun f => f.pfx == pyTake i cs) d.firs 0).getLast? with _ | j
    · have hpfx : d.fir_pfx_idx (pyTake i cs) = none := hp
      have hlast : lastFirByPfx d (pyTake i cs) = none := by
        rw [lastFirByPfx, ← hlk]
        unfold pickLast
        rw [hp]
      simp only [Data.pfxSearch, pfxSearchSpec, hpfx, hlast, ih]
    · have hpfx : d.fir_pfx_idx (pyTake i cs) = some j := hp
      have hget : d.firs.get? j
          = (d.firs.filter (fun f => f.pfx == pyTake i cs)).getLast? := by
        rw [← hlk]
        unfold pickLast
        rw [hp]
      have hne : d.firs.filter (fun f => f.pfx == pyTake i cs) ≠ [] := by
        intro hc
        have hnil : (idxList (fun f => f.pfx == pyTake i cs) d.firs 0) = [] := by
          rw [idxList_eq_nil_iff]
          exact List.find?_eq_none.mpr ((List.filter_eq_nil).mp hc)
        rw [hnil] at hp
        exact Option.noConfusion hp
      obtain ⟨x, hx⟩ := getLast?_isSome_of_ne _ hne
      have hlast : lastFirByPfx d (pyTake i cs) = some x := hx
      simp only [Data.pfxSearch, pfxSearchSpec, hpfx, hlast]
      exact hget.trans hx

theorem pfxSearchSpec_none_all (d : Data) (cs : String) :
    ∀ L : List Nat, pfxSearchSpec d cs L = none →
      ∀ i ∈ L, lastFirByPfx d (pyTake i cs) = none := by
  intro L
  induction L with
  | nil => intro _ i hi; exact absurd hi (List.not_mem_nil i)
  | cons a rest ih =>
    intro hnone i hi
    rcases hp : lastFirByPfx d (pyTake a cs) with _ | f
    · rw [pfxSearchSpec, hp] at hnone
      rcases List.mem_cons.mp hi with h | h
      · rw [h]; exact hp
      · exact ih hnone i h
    · rw [pfxSearchSpec, hp] at hnone
      exact Option.noConfusion hnone

theorem mem_rangeDown_five (n : Nat) (h : 5 ≤ n) : 5 ∈ rangeDown n 4 := by
  rw [rangeDown, List.mem_reverse, List.mem_range'_1]
  omega

/-- C4: `find_fir_by_ctrl` first resolves the pre-underscore segment via
the FIR-by-ICAO index (first indexed match), then tries left-substrings of
the full callsign from full length down to 5 characters against the
radio-prefix index (first hit wins); and whenever it returns none on a
callsign of length at least 5, the length-5 prefix was indeed tried and
missed. -/
theorem c4_find_fir_by_ctrl (d : Data) (cs : String) :
    d.find_fir_by_ctrl cs = findFirSpec d cs ∧
    (5 ≤ strLen cs → d.find_fir_by_ctrl cs = none →
      lastFirByPfx d (pyTake 5 cs) = none) := by
  have heq : d.find_fir_by_ctrl cs = findFirSpec d cs := by
    have hicao := pickHead_idx0 (fun f => f.icao == stationCode cs) d.firs
    unfold Data.find_fir_by_ctrl findFirSpec
    rcases hi : d.fir_icao_idx (stationCode cs) with _ | ⟨i, is⟩
    · rw [Data.fir_icao_idx] at hi
      have hfind : List.find? (fun f => f.icao == stationCode cs) d.firs = none :=
        (idxList_eq_nil_iff _ _ 0).mp hi
      have hspec : firstFirByIcao d (stationCode cs) = none := hfind
      rw [hspec]
      exact pfxSearch_eq_spec d cs _
    · rw [Data.fir_icao_idx] at hi
      rw [hi] at hicao
      have hget : d.firs.get? i
          = List.find? (fun f => f.icao == stationCode cs) d.firs := hicao
      rcases hfind : List.find? (fun f => f.icao == stationCode cs) d.firs with _ | f
      · exfalso
        rw [← idxList_eq_nil_iff _ _ 0, hi] at hfind
        exact List.cons_ne_nil _ _ hfind
      · have hspec : firstFirByIcao d (stationCode cs) = some f := hfind
        rw [hspec]
        exact hget.trans hfind
  refine ⟨heq, fun hlen hnone => ?_⟩
  rw [heq] at hnone
  unfold findFirSpec at hnone
  rcases hf : firstFirByIcao d (stationCode cs) with _ | f
  · rw [hf] at hnone
    exact pfxSearchSpec_none_all d cs _ hnone 5 (mem_rangeDown_five _ hlen)
  · rw [hf] at hnone
    exact Option.noConfusion hnone

/-- Witness for C4 at a concrete input: the empty dataset and the 5-character
callsign "ABCDE"; both hypotheses of the second conjunct are discharged by
evaluation. -/
theorem c4_find_fir_by_ctrl_witness :
    lastFirByPfx ⟨[], [], [], []⟩ (pyTake 5 "ABCDE") = none ∧
    Data.find_fir_by_ctrl ⟨[], [], [], []⟩ "ABCDE" = findFirSpec ⟨[], [], [], []⟩ "ABCDE" :=
  ⟨(c4_find_fir_by_ctrl ⟨[], [], [], []⟩ "ABCDE").2 (by decide) (by decide),
   (c4_find_fir_by_ctrl ⟨[], [], [], []⟩ "ABCDE").1⟩

/-- C5 counterexample: a FIR line whose radio prefix ("ALFA", third field)
has an entry in the boundaries map is nonetheless parsed with no
boundaries, because the source matches the fourth field (`tokens[3]`,
the boundary id) and then the ICAO, never the radio prefix. -/
theorem c5_counterexample :
    bnds5 "ALFA" = some bndB ∧
    FIR.parse bnds5 "AAAA|Alpha|ALFA|BNDID"
      = .ok ({ icao := "AAAA", name := "Alpha", pfx := "ALFA", boundaries := none }, true) := by
  constructor
  · rfl
  · decide

/-- C5 (amended): when a FIR record line has its four fields, parsing
succeeds and attaches boundaries by matching the fourth field (the
boundary id) against the boundaries map first, falling back to the FIR
ICAO (first field); if neither matches the FIR is kept with no boundaries
and the diagnostic flag is set — the miss is non-fatal. -/
theorem c5_boundaries_amended (bounds : String → Option Boundaries) (line : String)
    (h : (pySplit '|' (pyStrip line)).length = 4) :
    ∃ f diag, FIR.parse bounds line = .ok (f, diag) ∧
      f.boundaries = Option.orElse (bounds ((pySplit '|' (pyStrip line)).getD 3 ""))
        (fun _ => bounds ((pySplit '|' (pyStrip line)).getD 0 "")) ∧
      (diag = true ↔ f.boundaries = none) := by
  have hne : ¬ (pySplit '|' (pyStrip line)).length ≠ 4 := by omega
  refine ⟨{ icao := (pySplit '|' (pyStrip line)).getD 0 "",
            name := (pySplit '|' (pyStrip line)).getD 1 "",
            pfx := (pySplit '|' (pyStrip line)).getD 2 "",
            boundaries :=
              match bounds ((pySplit '|' (pyStrip line)).getD 3 "") with
              | some b => some b
              | none => bounds ((pySplit '|' (pyStrip line)).getD 0 "") },
          (match bounds ((pySplit '|' (pyStrip line)).getD 3 "") with
           | some b => some b
           | none => bounds ((pySplit '|' (pyStrip line)).getD 0 "")).isNone,
          ?_, ?_, ?_⟩
  · unfold FIR.parse
    rw [if_neg hne]
  · rcases hb : bounds ((pySplit '|' (pyStrip line)).getD 3 "") with _ | b
    · simp only [hb, Option.orElse]
    · simp only [hb, Option.orElse]
  · exact Option.isNone_iff_eq_none

/-- Witness for C5's amended theorem at the concrete counterexample line. -/
theorem c5_boundaries_amended_witness :
    ∃ f diag, FIR.parse bnds5 "AAAA|Alpha|ALFA|BNDID" = .ok (f, diag) ∧
      f.boundaries = Option.orElse
        (bnds5 ((pySplit '|' (pyStrip "AAAA|Alpha|ALFA|BNDID")).getD 3 ""))
        (fun _ => bnds5 ((pySplit '|' (pyStrip "AAAA|Alpha|ALFA|BNDID")).getD 0 "")) ∧
      (diag = true ↔ f.boundaries = none) :=
  c5_boundaries_amended bnds5 "AAAA|Alpha|ALFA|BNDID" (by decide)

theorem isRecordLine_parts (l : String) (h : isRecordLine l = true) :
    ¬ pyStrip l = "" ∧ ¬ startsWithChar ';' (pyStrip l) = true ∧
      ¬ (startsWithChar '[' (pyStrip l) && endsWithChar ']' (pyStrip l)) = true := by
  unfold isRecordLine at h
  rw [Bool.and_eq_true, Bool.and_eq_true, Bool.not_eq_true', Bool.not_eq_true',
    Bool.not_eq_true'] at h
  obtain ⟨⟨ha, hb⟩, hc⟩ := h
  refine ⟨beq_eq_false_iff_ne.mp ha, ?_, ?_⟩
  · rw [hb]; exact Bool.false_ne_true
  · rw [hc]; exact Bool.false_ne_true

theorem raisesParseError_map {α β : Type} (f : α → β) (r : Except PErr α) :
    raisesParseError (r.map f) = raisesParseError r := by
  cases r with
  | ok a => rfl
  | error e => cases e <;> rfl

theorem processLine_bad (pf : String → Option ℚ) (bds : String → Option Boundaries)
    (st : PState) (l : String) (h : badCountLine st.c_section l = true) :
    ∃ m, processLine pf bds st l = .error (.parseError m) := by
  unfold badCountLine at h
  rw [Bool.and_eq_true] at h
  obtain ⟨hrec, hsec⟩ := h
  obtain ⟨h1, h2, h3⟩ := isRecordLine_parts l hrec
  rcases hcs : st.c_section with _ | s
  · rw [hcs] at hsec
    exact absurd hsec Bool.false_ne_true
  · rw [hcs] at hsec
    unfold processLine
    rw [if_neg h1, if_neg h2, if_neg h3, hcs]
    by_cases hs1 : s = "countries"
    · rw [hs1] at hsec ⊢
      have hlen : ((pySplit '|' (pyStrip l)).length != 3) = true := hsec
      refine ⟨"invalid country line: " ++ l, ?_⟩
      show dispatchSection pf bds st "countries" l = _
      unfold dispatchSection
      rw [if_pos rfl]
      unfold Country.parse
      rw [if_pos (bne_iff_ne.mp hlen)]
      rfl
    · by_cases hs2 : s = "airports"
      · rw [hs2] at hsec ⊢
        have hlen : ((pySplit '|' (pyStrip l)).length != 7) = true := hsec
        refine ⟨"invalid airport line: " ++ l, ?_⟩
        show dispatchSection pf bds st "airports" l = _
        unfold dispatchSection
        rw [if_neg (by decide), if_pos rfl]
        unfold Airport.parse
        rw [if_pos (bne_iff_ne.mp hlen)]
        rfl
      · by_cases hs3 : s = "firs"
        · rw [hs3] at hsec ⊢
          have hlen : ((pySplit '|' (pyStrip l)).length != 4) = true := hsec
          refine ⟨"invalid FIR line: " ++ l, ?_⟩
          show dispatchSection pf bds st "firs" l = _
          unfold dispatchSection
          rw [if_neg (by decide), if_neg (by decide), if_pos rfl]
          unfold FIR.parse
          rw [if_pos (bne_iff_ne.mp hlen)]
          rfl
        · by_cases hs4 : s = "uirs"
          · rw [hs4] at hsec ⊢
            have hlen : ((pySplit '|' (pyStrip l)).length != 3) = true := hsec
            refine ⟨"invalid UIR line: " ++ l, ?_⟩
            show dispatchSection pf bds st "uirs" l = _
            unfold dispatchSection
            rw [if_neg (by decide), if_neg (by decide), if_neg (by decide), if_pos rfl]
            unfold UIR.parse
            rw [if_pos (bne_iff_ne.mp hlen)]
            rfl
          · exfalso
            have hfc : fieldCount s = none := by
              unfold fieldCount
              rw [if_neg hs1, if_neg hs2, if_neg hs3, if_neg hs4]
            have hsec2 : (match fieldCount s with
                | none => false
                | some n => (pySplit '|' (pyStrip l)).length != n) = true := hsec
            rw [hfc] at hsec2
            exact Bool.false_ne_true hsec2

theorem processLine_ok (pf : String → Option ℚ) (bds : String → Option Boundaries)
    (st : PState) (l : String) (hbad : badCountLine st.c_section l = false)
    (hfl : floatsOkLine pf st.c_section l = true) :
    ∃ st2, processLine pf bds st l = .ok st2 ∧ st2.c_section = sectionAfter st.c_section l := by
  by_cases h1 : pyStrip l = ""
  · refine ⟨st, ?_, ?_⟩
    · unfold processLine; rw [if_pos h1]
    · unfold sectionAfter; rw [if_pos h1]
  by_cases h2 : startsWithChar ';' (pyStrip l) = true
  · refine ⟨st, ?_, ?_⟩
    · unfold processLine; rw [if_neg h1, if_pos h2]
    · unfold sectionAfter; rw [if_neg h1, if_pos h2]
  by_cases h3 : (startsWithChar '[' (pyStrip l) && endsWithChar ']' (pyStrip l)) = true
  · refine ⟨{ st with c_section := some (lowerStr (innerStr (pyStrip l))) }, ?_, ?_⟩
    · unfold processLine; rw [if_neg h1, if_neg h2, if_pos h3]
    · unfold sectionAfter; rw [if_neg h1, if_neg h2, if_pos h3]
  have e1 : (pyStrip l == "") = false := beq_eq_false_iff_ne.mpr h1
  have e2 : startsWithChar ';' (pyStrip l) = false := by
    cases hx : startsWithChar ';' (pyStrip l)
    · rfl
    · exact absurd hx h2
  have e3 : (startsWithChar '[' (pyStrip l) && endsWithChar ']' (pyStrip l)) = false := by
    cases hx : (startsWithChar '[' (pyStrip l) && endsWithChar ']' (pyStrip l))
    · rfl
    · exact absurd hx h3
  have hrec : isRecordLine l = true := by
    unfold isRecordLine
    rw [e1, e2, e3]
    rfl
  have hafter : sectionAfter st.c_section l = st.c_section := by
    unfold sectionAfter; rw [if_neg h1, if_neg h2, if_neg h3]
  rw [hafter]
  unfold badCountLine at hbad
  rw [hrec, Bool.true_and] at hbad
  rcases hcs : st.c_section with _ | s
  · refine ⟨st, ?_, hcs⟩
    unfold processLine
    rw [if_neg h1, if_neg h2, if_neg h3, hcs]
  · rw [hcs] at hbad hfl
    unfold processLine
    rw [if_neg h1, if_neg h2, if_neg h3, hcs]
    by_cases hs1 : s = "countries"
    · rw [hs1] at hbad ⊢
      have hlen : ((pySplit '|' (pyStrip l)).length != 3) = false := hbad
      have hlen2 : (pySplit '|' (pyStrip l)).length = 3 := bne_eq_false_iff_eq.mp hlen
      refine ⟨{ st with countries := st.countries ++
        [{ name := (pySplit '|' (pyStrip l)).getD 0 "",
           code := (pySplit '|' (pyStrip l)).getD 1 "",
           custom_control_name :=
             if (pySplit '|' (pyStrip l)).getD 2 "" ≠ "" then
               some ((pySplit '|' (pyStrip l)).getD 2 "")
             else none }] }, ?_, hs1 ▸ hcs⟩
      show dispatchSection pf bds st "countries" l = _
      unfold dispatchSection
      rw [if_pos rfl]
      unfold Country.parse
      rw [if_neg (by omega)]
      rfl
    by_cases hs2 : s = "airports"
    · rw [hs2] at hbad hfl ⊢
      have hlen : ((pySplit '|' (pyStrip l)).length != 7) = false := hbad
      have hlen2 : (pySplit '|' (pyStrip l)).length = 7 := bne_eq_false_iff_eq.mp hlen
      have hcond : ((some "airports" == some "airports") && isRecordLine l
          && ((pySplit '|' (pyStrip l)).length == 7)) = true := by
        rw [Bool.and_eq_true, Bool.and_eq_true]
        exact ⟨⟨beq_self_eq_true _, hrec⟩, by rw [hlen2]; rfl⟩
      unfold floatsOkLine at hfl
      rw [if_pos hcond] at hfl
      rw [Bool.and_eq_true, Option.isSome_iff_exists, Option.isSome_iff_exists] at hfl
      obtain ⟨⟨lat, hlat⟩, ⟨lng, hlng⟩⟩ := hfl
      refine ⟨{ st with airports := st.airports ++
        [{ icao := (pySplit '|' (pyStrip l)).getD 0 "",
           name := (pySplit '|' (pyStrip l)).getD 1 "",
           latitude := lat, longitude := lng,
           iata := if (pySplit '|' (pyStrip l)).getD 4 "" ≠ "" then
               some ((pySplit '|' (pyStrip l)).getD 4 "")
             else none,
           fir := (pySplit '|' (pyStrip l)).getD 5 "",
           is_pseudo := (pySplit '|' (pyStrip l)).getD 6 "" == "1" }] }, ?_, hs2 ▸ hcs⟩
      show dispatchSection pf bds st "airports" l = _
      unfold dispatchSection
      rw [if_neg (by decide), if_pos rfl]
      unfold Airport.parse
      rw [if_neg (by omega), hlat, hlng]
      rfl
    by_cases hs3 : s = "firs"
    · rw [hs3] at hbad ⊢
      have hlen : ((pySplit '|' (pyStrip l)).length != 4) = false := hbad
      have hlen2 : (pySplit '|' (pyStrip l)).length = 4 := bne_eq_false_iff_eq.mp hlen
      refine ⟨{ st with firs := st.firs ++
        [{ icao := (pySplit '|' (pyStrip l)).getD 0 "",
           name := (pySplit '|' (pyStrip l)).getD 1 "",
           pfx := (pySplit '|' (pyStrip l)).getD 2 "",
           boundaries :=
             match bds ((pySplit '|' (pyStrip l)).getD 3 "") with
             | some b => some b
             | none => bds ((pySplit '|' (pyStrip l)).getD 0 "") }] }, ?_, hs3 ▸ hcs⟩
      show dispatchSection pf bds st "firs" l = _
      unfold dispatchSection
      rw [if_neg (by decide), if_neg (by decide), if_pos rfl]
      unfold FIR.parse
      rw [if_neg (by omega)]
      rfl
    by_cases hs4 : s = "uirs"
    · rw [hs4] at hbad ⊢
      have hlen : ((pySplit '|' (pyStrip l)).length != 3) = false := hbad
      have hlen2 : (pySplit '|' (pyStrip l)).length = 3 := bne_eq_false_iff_eq.mp hlen
      refine ⟨{ st with uirs := st.uirs ++
        [{ icao := (pySplit '|' (pyStrip l)).getD 0 "",
           name := (pySplit '|' (pyStrip l)).getD 1 "",
           fir_ids := pySplit ',' (pyStrip ((pySplit '|' (pyStrip l)).getD 2 "")) }] },
        ?_, hs4 ▸ hcs⟩
      show dispatchSection pf bds st "uirs" l = _
      unfold dispatchSection
      rw [if_neg (by decide), if_neg (by decide), if_neg (by decide), if_pos rfl]
      unfold UIR.parse
      rw [if_neg (by omega)]
      rfl
    · refine ⟨st, ?_, hcs⟩
      show dispatchSection pf bds st s l = _
      unfold dispatchSection
      rw [if_neg hs1, if_neg hs2, if_neg hs3, if_neg hs4]

theorem parseLines_parse_error (pf : String → Option ℚ) (bds : String → Option Boundaries) :
    ∀ (lines : List String) (st : PState),
      floatsOk pf st.c_section lines = true →
      raisesParseError (parseLines pf bds st lines) = hasBadCount st.c_section lines := by
  intro lines
  induction lines with
  | nil => intro st _; rfl
  | cons l rest ih =>
    intro st hfo
    rw [floatsOk, Bool.and_eq_true] at hfo
    obtain ⟨hfl, hrest⟩ := hfo
    rcases hbad : badCountLine st.c_section l with _ | _
    · obtain ⟨st2, hok, hsec⟩ := processLine_ok pf bds st l hbad hfl
      rw [parseLines, hok, hasBadCount, hbad, Bool.false_or]
      rw [← hsec] at hrest ⊢
      exact ih st2 hrest
    · obtain ⟨m, herr⟩ := processLine_bad pf bds st l hbad
      rw [parseLines, herr, hasBadCount, hbad, Bool.true_or]
      rfl

/-- C10 (amended): `Data.parse` silently skips any record line that appears
before the first section header or under a section name other than
countries/airports/firs/uirs; and, provided the float coercion accepts
the latitude/longitude fields of every well-formed airports record line,
it raises `ParseError` exactly when some line inside one of the four
recognized sections splits into a number of pipe-delimited fields
different from that section's fixed count.  (Without the float proviso
the "only if" direction fails: a non-numeric airport field raises the
pydantic validation error instead, see the counterexample.) -/
theorem c10_parse_error_iff (pf : String → Option ℚ) (bds : String → Option Boundaries) :
    (∀ (st : PState) (l : String), recognizedSection st.c_section = false →
      isRecordLine l = true → processLine pf bds st l = .ok st) ∧
    (∀ text : String, floatsOk pf none (pySplit '\n' text) = true →
      raisesParseError (Data.parse pf bds text) = hasBadCount none (pySplit '\n' text)) := by
  constructor
  · intro st l hunrec hrec
    obtain ⟨h1, h2, h3⟩ := isRecordLine_parts l hrec
    unfold processLine
    rw [if_neg h1, if_neg h2, if_neg h3]
    rcases hcs : st.c_section with _ | s
    · rfl
    · rw [hcs] at hunrec
      have hfc : (fieldCount s).isSome = false := hunrec
      have hs1 : ¬ s = "countries" := by
        intro hx; rw [hx] at hfc; exact absurd hfc (by decide)
      have hs2 : ¬ s = "airports" := by
        intro hx; rw [hx] at hfc; exact absurd hfc (by decide)
      have hs3 : ¬ s = "firs" := by
        intro hx; rw [hx] at hfc; exact absurd hfc (by decide)
      have hs4 : ¬ s = "uirs" := by
        intro hx; rw [hx] at hfc; exact absurd hfc (by decide)
      show dispatchSection pf bds st s l = _
      unfold dispatchSection
      rw [if_neg hs1, if_neg hs2, if_neg hs3, if_neg hs4]
  · intro text hfo
    unfold Data.parse
    rw [raisesParseError_map]
    exact parseLines_parse_error pf bds (pySplit '\n' text) initPState hfo

/-- Witness for C10's amended theorem: a stray record line before any
header is skipped, and a concrete input whose countries section holds a
two-field line makes the parse raise `ParseError`. -/
theorem c10_parse_error_iff_witness :
    processLine pyFloatDec (fun _ => none) initPState "stray|line" = .ok initPState ∧
    raisesParseError (Data.parse pyFloatDec (fun _ => none) "[Countries]\na|b")
      = hasBadCount none (pySplit '\n' "[Countries]\na|b") :=
  ⟨(c10_parse_error_iff pyFloatDec (fun _ => none)).1 initPState "stray|line"
      (by decide) (by decide),
   (c10_parse_error_iff pyFloatDec (fun _ => none)).2 "[Countries]\na|b" (by decide)⟩

/-- C10 counterexample to the claim as stated: this input has a
wrong-field-count line inside the countries section, yet `Data.parse`
does not raise `ParseError` — the earlier airports line "A|B|x|1.0|I|F|0"
has the right field count but a latitude `float("x")` cannot coerce, so
the pydantic validation error aborts the parse first. -/
theorem c10_counterexample :
    raisesParseError (Data.parse pyFloatDec (fun _ => none)
      "[Airports]\nA|B|x|1.0|I|F|0\n[Countries]\na|b") = false ∧
    hasBadCount none (pySplit '\n' "[Airports]\nA|B|x|1.0|I|F|0\n[Countries]\na|b") = true ∧
    Data.parse pyFloatDec (fun _ => none) "[Airports]\nA|B|x|1.0|I|F|0\n[Countries]\na|b"
      = .error (.validationError ("invalid number in airport line: " ++ "A|B|x|1.0|I|F|0")) := by
  refine ⟨?_, ?_, ?_⟩ <;> decide

/-- C9: a record of the controllers array whose facility code is 1 is
ignored entirely by `store_controllers`: filtering all such records out
of the controllers list leaves the aggregation outcome unchanged, so the
record contributes to no airport role slot, no FIR controller mapping and
no flattened stored-controller entry. -/
theorem c9_facility1_ignored (ctrls atis : List Controller) :
    store_controllers_resolve (ctrls.filter (fun c => c.facility != 1)) atis
      = store_controllers_resolve ctrls atis := by
  unfold store_controllers_resolve
  suffices h : ∀ st, runCtrls st (ctrls.filter (fun c => c.facility != 1))
      = runCtrls st ctrls by
    rw [h]
  intro st
  induction ctrls generalizing st with
  | nil => rfl
  | cons c rest ih =>
    by_cases hf : c.facility = 1
    · have hp : ¬ ((fun c : Controller => c.facility != 1) c = true) :=
        fun hx => (bne_iff_ne.mp hx) hf
      have hfil : List.filter (fun c : Controller => c.facility != 1) (c :: rest)
          = List.filter (fun c : Controller => c.facility != 1) rest := by
        rw [List.filter_cons, if_neg hp]
      rw [hfil]
      have hstep : stepCtrl st c = .ok st := by
        unfold stepCtrl
        rw [if_neg (by omega), if_neg (by omega)]
      have hskip : runCtrls st (c :: rest) = runCtrls st rest := by
        rw [runCtrls, hstep]
      rw [hskip]
      exact ih st
    · have hp : (fun c : Controller => c.facility != 1) c = true := bne_iff_ne.mpr hf
      have hfil : List.filter (fun c : Controller => c.facility != 1) (c :: rest)
          = c :: List.filter (fun c : Controller => c.facility != 1) rest := by
        rw [List.filter_cons, if_pos hp]
      rw [hfil]
      rw [runCtrls, runCtrls]
      cases hstep : stepCtrl st c with
      | ok st2 => exact ih st2
      | error e => rfl

/-- C6: `store_controllers` never reaches FIR resolution, let alone the
boundary-less FIR the claim singles out: processing any facility-6
controller raises `TypeError` at `await get_fixed_data()` — the awaited
function is synchronous — and the whole call aborts, contrary to the
claim that it completes without raising and flattens every resolved
controller with a representative position. -/
theorem c6_store_controllers_raises (ctrl : Controller) (h : ctrl.facility = 6) :
    store_controllers_resolve [ctrl] [] = .error awaitTypeError := by
  have hstep : stepCtrl emptyAgg ctrl = .error awaitTypeError := by
    unfold stepCtrl
    rw [if_neg (by omega), if_pos h]
  unfold store_controllers_resolve runCtrls
  rw [hstep]

/-- Witness for C6 at the concrete facility-6 controller `ctrl6`. -/
theorem c6_store_controllers_raises_witness :
    store_controllers_resolve [ctrl6] [] = .error awaitTypeError :=
  c6_store_controllers_raises ctrl6 (by decide)

/-- C7: evaluating `is_empty` on any per-cycle FIR state raises instead of
returning a boolean: the class defines the field `controllers`, but the
property body reads `self.controller`, an attribute that does not exist,
so it can never report whether the mapping is empty. -/
theorem c7_is_empty_raises (f : FIRState) :
    FIRState.is_empty f = .error "AttributeError: controller" := rfl

/-- C8: the country stored at index 0 of the loaded list is never found:
with a single loaded country of code "AA" sitting at index 0, a lookup
for an ICAO starting with "AA" returns none, because the source guard
`if idx:` treats index 0 like a missing key. -/
theorem c8_first_country_unfindable :
    d8.countries.get? 0 = some cAA ∧ pyTake 2 "AAAA" = cAA.code ∧
    d8.find_country_by_icao "AAAA" = none := by
  refine ⟨rfl, rfl, ?_⟩
  decide

/-- C2: `delete_old_keys` computes the stale set as exactly the set
difference existing minus current, issues its single delete request
tagged with the cycle version precisely when that set is non-empty, and
never deletes a key that is in the current key set. -/
theorem c2_delete_old_keys (E C : Finset String) (v : Int) :
    (delete_old_keys E C v = none ↔ E \ C = ∅) ∧
    (∀ r, delete_old_keys E C v = some r →
      r.keys = E \ C ∧ r.version = v ∧ ∀ k ∈ C, k ∉ r.keys) := by
  constructor
  · unfold delete_old_keys
    by_cases h : E \ C = ∅
    · rw [if_neg (fun hc => hc h)]
      simp [h]
    · rw [if_pos h]
      simp [h]
  · intro r hr
    unfold delete_old_keys at hr
    by_cases h : E \ C ≠ ∅
    · rw [if_pos h] at hr
      cases hr
      refine ⟨rfl, rfl, fun k hk hmem => ?_⟩
      exact (Finset.mem_sdiff.mp hmem).2 hk
    · rw [if_neg h] at hr
      exact Option.noConfusion hr

/-- Witness for C2 at the spec's reconciliation example:
existing = \x7bA,B,C\x7d, current = \x7bB,C,D\x7d — a request goes out and D is
not among the deleted keys. -/
theorem c2_delete_old_keys_witness :
    delete_old_keys ({"A", "B", "C"} : Finset String) {"B", "C", "D"} 7 ≠ none ∧
    "D" ∉ ({"A", "B", "C"} : Finset String) \ {"B", "C", "D"} := by
  have h := c2_delete_old_keys ({"A", "B", "C"} : Finset String) {"B", "C", "D"} 7
  have hne : ({"A", "B", "C"} : Finset String) \ {"B", "C", "D"} ≠ ∅ := by decide
  constructor
  · intro hc
    exact hne (h.1.mp hc)
  · cases hd : delete_old_keys ({"A", "B", "C"} : Finset String) {"B", "C", "D"} 7 with
    | none => exact absurd (h.1.mp hd) hne
    | some r =>
      have hparts := h.2 r hd
      have hnotmem := hparts.2.2 "D" (by decide)
      rw [← hparts.1]
      exact hnotmem

/-- C1 counterexample: with a previously accepted version equal to 0 and a
new snapshot of the same version, the claim requires no store calls, but
the source guard `if prev_version and ...` treats the previous version 0
as absent, so the cycle runs its store calls. -/
theorem c1_counterexample :
    (0 : Int) ≤ 0 ∧ process_gate (some 0) 0 = ⟨true, 0⟩ := by
  constructor
  · decide
  · decide

/-- C1 (amended): the poll cycle accepts a snapshot if no previous version
exists, if the previous version is 0 (integer truthiness treats it as
absent), or if the snapshot's version is strictly greater; when a nonzero
previous version exists and the new version is not strictly greater, no
store call happens and the previous version is returned unchanged — so
from any nonzero previous version, a cycle that stores has a strictly
greater version. -/
theorem c1_version_gate_amended (pv v : Int) (h : pv ≠ 0) :
    (v ≤ pv → process_gate (some pv) v = ⟨false, pv⟩) ∧
    (pv < v → process_gate (some pv) v = ⟨true, v⟩) ∧
    ((process_gate (some pv) v).store_calls = true → pv < v) ∧
    process_gate none v = ⟨true, v⟩ := by
  have hg : process_gate (some pv) v
      = if pv ≠ 0 ∧ v ≤ pv then ⟨false, pv⟩ else ⟨true, v⟩ := rfl
  refine ⟨?_, ?_, ?_, rfl⟩
  · intro hle
    rw [hg, if_pos ⟨h, hle⟩]
  · intro hlt
    rw [hg, if_neg (fun hc => absurd hc.2 (by omega))]
  · intro hsc
    by_contra hnlt
    have hle : v ≤ pv := by omega
    rw [hg, if_pos ⟨h, hle⟩] at hsc
    exact Bool.false_ne_true hsc

/-- Witness for C1's amended gate at the spec's example versions: previous
100 with new 100 skips, previous 100 with new 101 stores. -/
theorem c1_version_gate_witness :
    process_gate (some 100) 100 = ⟨false, 100⟩ ∧
    process_gate (some 100) 101 = ⟨true, 101⟩ :=
  ⟨(c1_version_gate_amended 100 100 (by decide)).1 (by decide),
   (c1_version_gate_amended 100 101 (by decide)).2.1 (by decide)⟩

end VSFetch
